import Mathlib

/-!
Shallow embedding, in Lean 4, of the `stripe` Go client library
(card utilities, timestamp (de)serialization, and form-value
construction), together with theorems checking the repository's
specification against it.

Go strings are modelled as Lean `String`/`List Char` (the inputs of
interest are ASCII, where Go's byte indexing and rune splitting agree);
Go `int`/`int64` are modelled as `Int` with explicit truncated division
(`Int.tdiv`) where Go division occurs; fallible operations return
`Option`/`Except`; `url.Values` (with its append-only `Add`) is
modelled as an ordered list of key-value pairs.
-/

namespace Stripe

/-! ## Decimal digits (strconv.Atoi on a one-rune string) -/

/-- `true` exactly on ASCII decimal digits `'0'`..`'9'` — the characters
`strconv.Atoi` accepts in a one-character string. -/
def isGoDigit (c : Char) : Bool := 48 ≤ c.toNat && c.toNat ≤ 57

/-- Numeric value of an ASCII digit character. -/
def digitVal (c : Char) : Nat := c.toNat - 48

/-- `strconv.Atoi` applied to a single-rune string, as produced by
`strings.Split(card, "")`: the digit's value, or an error for any
non-digit rune. -/
def atoiChar (c : Char) : Option Nat :=
  if isGoDigit c then some (digitVal c) else none

theorem digitVal_lt_ten {c : Char} (h : isGoDigit c = true) : digitVal c < 10 := by
  simp only [isGoDigit, Bool.and_eq_true, decide_eq_true_eq] at h
  simp only [digitVal]
  omega

/-! ## IsLuhnValid (src/card.go, lines 128-156) -/

/-- The amount the loop body of `IsLuhnValid` adds to `sum` for digit
value `d` when the `even` flag has the given value: the three-way
`switch` at src/card.go lines 144-151. -/
def luhnDigitValue (even : Bool) (d : Nat) : Nat :=
  if even = true ∧ 4 < d then d * 2 - 9
  else if even = true then d * 2
  else d

/-- The loop of `IsLuhnValid`, processing the characters in reverse
order (the argument list is the reversed input, so its head is the
rightmost character); `even` starts `false` and toggles each step.
`none` models the early `return false, err` on a non-digit rune. -/
def luhnSum : List Char → Bool → Option Nat
  | [], _ => some 0
  | c :: rest, even =>
    match atoiChar c with
    | none => none
    | some d => (luhnSum rest (!even)).map (fun s => luhnDigitValue even d + s)

/-- `IsLuhnValid` from src/card.go: Luhn mod-10 check over the decimal
digits of `card`; `Except.error ()` models the non-nil `error` return
(the concrete `strconv` error value is opaque to this development). -/
def IsLuhnValid (card : String) : Except Unit Bool :=
  match luhnSum card.data.reverse false with
  | none => Except.error ()
  | some sum => Except.ok (sum % 10 == 0)

/-! ## The spec's Luhn algorithm (spec.md §4.1), for refinement -/

/-- Modelled from the spec: the adjusted value of one digit in the
spec's Luhn description — a digit at odd distance from the end
(`dbl = true`) is doubled and, if the doubled value exceeds 9, 9 is
subtracted; other digits are taken as-is. -/
def luhnSpecValue (dbl : Bool) (d : Nat) : Nat :=
  if dbl = true then (if d * 2 > 9 then d * 2 - 9 else d * 2) else d

/-- Modelled from the spec: the Luhn running sum over digit values
listed rightmost-first; `dbl` is `false` for the rightmost digit and
toggles at each step leftwards. -/
def luhnSpecSum : List Nat → Bool → Nat
  | [], _ => 0
  | d :: rest, dbl => luhnSpecValue dbl d + luhnSpecSum rest (!dbl)

/-- Modelled from the spec: a digit string (digit values listed
leftmost-first) is Luhn-valid iff the final sum is divisible by 10. -/
def luhnSpecValid (ds : List Nat) : Bool :=
  luhnSpecSum ds.reverse false % 10 == 0

theorem luhnDigitValue_eq_spec (e : Bool) (d : Nat) :
    luhnDigitValue e d = luhnSpecValue e d := by
  cases e
  · simp [luhnDigitValue, luhnSpecValue]
  · simp only [luhnDigitValue, luhnSpecValue]
    simp only [eq_self_iff_true, true_and, if_true]
    split_ifs <;> omega

theorem luhnSum_eq_spec : ∀ (l : List Char) (e : Bool),
    l.all isGoDigit = true →
    luhnSum l e = some (luhnSpecSum (l.map digitVal) e) := by
  intro l
  induction l with
  | nil => intro e _; rfl
  | cons c rest ih =>
    intro e hall
    rw [List.all_cons, Bool.and_eq_true] at hall
    obtain ⟨hc, hrest⟩ := hall
    simp [luhnSum, atoiChar, hc, luhnSpecSum, ih (!e) hrest, luhnDigitValue_eq_spec]

theorem luhnSum_isSome_iff : ∀ (l : List Char) (e : Bool),
    (luhnSum l e ≠ none) ↔ l.all isGoDigit = true := by
  intro l
  induction l with
  | nil => intro e; simp [luhnSum]
  | cons c rest ih =>
    intro e
    by_cases hc : isGoDigit c = true
    · simp [luhnSum, atoiChar, hc, ih (!e)]
    · simp [luhnSum, atoiChar, hc]

/-- C1: on digit-only input, `IsLuhnValid` returns, with a nil error,
exactly the spec's Luhn mod-10 verdict (scan right-to-left, double the
digits at odd distance from the end, subtract 9 from doubled values
exceeding 9, sum, test divisibility by 10); in particular it accepts
"4242424242424242" and rejects "4242424242424241". -/
theorem C1_IsLuhnValid_matches_spec :
    (∀ card : String, card.data.all isGoDigit = true →
      IsLuhnValid card = Except.ok (luhnSpecValid (card.data.map digitVal)))
    ∧ IsLuhnValid "4242424242424242" = Except.ok true
    ∧ IsLuhnValid "4242424242424241" = Except.ok false := by
  refine ⟨fun card h => ?_, rfl, rfl⟩
  have hrev : card.data.reverse.all isGoDigit = true := by
    rw [List.all_reverse]; exact h
  rw [IsLuhnValid, luhnSum_eq_spec card.data.reverse false hrev]
  rw [luhnSpecValid, ← List.map_reverse]

/-- C1 witness: the general clause applied to the concrete digit string
"4242424242424242". -/
theorem C1_witness :
    "4242424242424242".data.all isGoDigit = true ∧
    IsLuhnValid "4242424242424242" =
      Except.ok (luhnSpecValid ("4242424242424242".data.map digitVal)) :=
  ⟨by decide, C1_IsLuhnValid_matches_spec.1 "4242424242424242" (by decide)⟩

theorem char_of_digitVal_eq {c c' : Char} (hc : isGoDigit c = true)
    (hc' : isGoDigit c' = true) (h : digitVal c = digitVal c') : c = c' := by
  simp only [isGoDigit, Bool.and_eq_true, decide_eq_true_eq] at hc hc'
  have htn : c.toNat = c'.toNat := by simp only [digitVal] at h; omega
  apply Char.eq_of_val_eq
  apply UInt32.eq_of_toBitVec_eq
  exact BitVec.eq_of_toNat_eq htn

/-- `!` applied `n` times: the value of the alternating double/plain
flag after consuming `n` digits. -/
def parityFlip (n : Nat) (b : Bool) : Bool := if n % 2 = 0 then b else !b

theorem parityFlip_succ (n : Nat) (b : Bool) :
    parityFlip (n + 1) b = parityFlip n (!b) := by
  rcases Nat.even_or_odd n with h | h
  · have h0 : n % 2 = 0 := Nat.even_iff.mp h
    have h1 : (n + 1) % 2 = 1 := by omega
    simp [parityFlip, h0, h1]
  · have h0 : n % 2 = 1 := Nat.odd_iff.mp h
    have h1 : (n + 1) % 2 = 0 := by omega
    simp [parityFlip, h0, h1]

theorem luhnSpecSum_append : ∀ (xs ys : List Nat) (e : Bool),
    luhnSpecSum (xs ++ ys) e =
      luhnSpecSum xs e + luhnSpecSum ys (parityFlip xs.length e) := by
  intro xs
  induction xs with
  | nil => intro ys e; simp [luhnSpecSum, parityFlip]
  | cons d rest ih =>
    intro ys e
    simp only [List.cons_append, luhnSpecSum, List.length_cons, parityFlip_succ,
      List.append_eq]
    rw [ih ys (!e), Nat.add_assoc]

theorem luhnSpecValue_mod_inj (f : Bool) (d d' : Nat) (hd : d < 10)
    (hd' : d' < 10) (hne : d ≠ d') :
    luhnSpecValue f d % 10 ≠ luhnSpecValue f d' % 10 := by
  simp only [luhnSpecValue]
  split_ifs <;> omega

/-- Changing one digit (value `< 10`) of a Luhn-valid digit sequence to
a different digit value always breaks validity. -/
theorem luhnSpecValid_single_change (a b : List Nat) (d d' : Nat)
    (hd : d < 10) (hd' : d' < 10) (hne : d ≠ d')
    (hvalid : luhnSpecValid (a ++ d :: b) = true) :
    luhnSpecValid (a ++ d' :: b) = false := by
  have hrw : ∀ x : Nat, (a ++ x :: b).reverse = (b.reverse ++ [x]) ++ a.reverse := by
    intro x; simp
  have hsum : ∀ x : Nat, luhnSpecSum ((a ++ x :: b).reverse) false =
      luhnSpecSum b.reverse false +
        luhnSpecValue (parityFlip b.reverse.length false) x +
        luhnSpecSum a.reverse
          (parityFlip (b.reverse ++ [x]).length false) := by
    intro x
    rw [hrw x, luhnSpecSum_append, luhnSpecSum_append]
    simp [luhnSpecSum]
  have hlen : (b.reverse ++ [d]).length = (b.reverse ++ [d']).length := by simp
  rw [luhnSpecValid, hsum d, beq_iff_eq] at hvalid
  rw [luhnSpecValid, hsum d', ← hlen]
  have hinj := luhnSpecValue_mod_inj (parityFlip b.reverse.length false) d d' hd hd' hne
  rw [beq_eq_false_iff_ne]
  omega

/-- C2: replacing exactly one digit of a digit-only string accepted by
`IsLuhnValid` with a different decimal digit always makes
`IsLuhnValid` return `false` (with a nil error). -/
theorem C2_single_digit_change_detected (s t : String) (a b : List Char)
    (c c' : Char) (hs : s.data = a ++ c :: b) (ht : t.data = a ++ c' :: b)
    (hne : c ≠ c') (hsd : s.data.all isGoDigit = true)
    (htd : t.data.all isGoDigit = true)
    (hvalid : IsLuhnValid s = Except.ok true) :
    IsLuhnValid t = Except.ok false := by
  have hc : isGoDigit c = true := by
    rw [hs] at hsd; simp [List.all_append] at hsd; exact hsd.2.1
  have hc' : isGoDigit c' = true := by
    rw [ht] at htd; simp [List.all_append] at htd; exact htd.2.1
  have hseq := C1_IsLuhnValid_matches_spec.1 s hsd
  have hteq := C1_IsLuhnValid_matches_spec.1 t htd
  rw [hseq] at hvalid
  have hsv : luhnSpecValid (s.data.map digitVal) = true := by
    exact Except.ok.inj hvalid
  rw [hs] at hsv
  simp only [List.map_append, List.map_cons] at hsv
  have hfv := luhnSpecValid_single_change (a.map digitVal) (b.map digitVal)
    (digitVal c) (digitVal c') (digitVal_lt_ten hc) (digitVal_lt_ten hc')
    (fun h => hne (char_of_digitVal_eq hc hc' h)) hsv
  rw [hteq, ht]
  simp only [List.map_append, List.map_cons]
  rw [hfv]

/-- C2 witness: applied to the valid card number "4242424242424242"
with its last digit changed from 2 to 1. -/
theorem C2_witness : IsLuhnValid "4242424242424241" = Except.ok false :=
  C2_single_digit_change_detected "4242424242424242" "4242424242424241"
    ['4', '2', '4', '2', '4', '2', '4', '2', '4', '2', '4', '2', '4', '2', '4']
    [] '2' '1' (by decide) (by decide) (by decide) (by decide) (by decide) rfl

/-- C3: `IsLuhnValid` returns a non-nil error exactly when the input
contains a character that is not a decimal digit (so on digit-only
inputs it returns a boolean with a nil error); in particular
"abc123" fails with the invalid-digit error. -/
theorem C3_IsLuhnValid_error_iff :
    (∀ card : String,
      (IsLuhnValid card = Except.error ()) ↔ card.data.all isGoDigit = false)
    ∧ IsLuhnValid "abc123" = Except.error () := by
  refine ⟨fun card => ?_, rfl⟩
  have h := luhnSum_isSome_iff card.data.reverse false
  rw [List.all_reverse] at h
  constructor
  · intro herr
    by_contra hall
    rw [Bool.not_eq_false] at hall
    have hne2 : luhnSum card.data.reverse false ≠ none := h.mpr hall
    rw [IsLuhnValid] at herr
    rcases hls : luhnSum card.data.reverse false with _ | s
    · exact hne2 hls
    · rw [hls] at herr
      exact Except.noConfusion herr
  · intro hall
    rcases hls : luhnSum card.data.reverse false with _ | s
    · rw [IsLuhnValid, hls]
    · exfalso
      have htrue : card.data.all isGoDigit = true := h.mp (by rw [hls]; simp)
      rw [hall] at htrue
      exact Bool.false_ne_true htrue

/-! ## GetCardType (src/card.go, lines 161-197) -/

/-- Card-brand string constants from src/card.go lines 11-19. -/
def AmericanExpress : String := "American Express"

def DinersClub : String := "Diners Club"

def Discover : String := "Discover"

def JCB : String := "JCB"

def MasterCard : String := "MasterCard"

def Visa : String := "Visa"

def UnknownCard : String := "Unknown"

/-- The Go string slice `card[0:j]`: `none` models the out-of-range
panic when `j` exceeds the length. (On the ASCII inputs in scope,
Go's byte slicing agrees with character slicing.) -/
def goSlice (card : List Char) (j : Nat) : Option (List Char) :=
  if j ≤ card.length then some (card.take j) else none

/-- `GetCardType` from src/card.go over the character list of the
input; `none` models the slice-out-of-range panic. Each `switch` is
an if-chain over the sliced prefixes; a `case` list is a disjunction;
a `switch` that falls through without returning reaches the final
`return UnknownCard`. -/
def getCardTypeL (card : List Char) : Option String :=
  match goSlice card 1 with
  | none => none
  | some c1 =>
    if c1 = ['4'] then some Visa
    else if c1 = ['2'] ∨ c1 = ['1'] then
      match goSlice card 4 with
      | none => none
      | some c4 =>
        if c4 = ['2', '1', '3', '1'] ∨ c4 = ['1', '8', '0', '0'] then some JCB
        else some UnknownCard
    else if c1 = ['6'] then
      match goSlice card 4 with
      | none => none
      | some c4 =>
        if c4 = ['6', '0', '1', '1'] then some Discover
        else some UnknownCard
    else if c1 = ['5'] then
      match goSlice card 2 with
      | none => none
      | some c2 =>
        if c2 = ['5', '1'] ∨ c2 = ['5', '2'] ∨ c2 = ['5', '3'] ∨
            c2 = ['5', '4'] ∨ c2 = ['5', '5'] then some MasterCard
        else some UnknownCard
    else if c1 = ['3'] then
      match goSlice card 2 with
      | none => none
      | some c2 =>
        if c2 = ['3', '4'] ∨ c2 = ['3', '7'] then some AmericanExpress
        else if c2 = ['3', '6'] then some DinersClub
        else if c2 = ['3', '0'] then
          match goSlice card 3 with
          | none => none
          | some c3 =>
            if c3 = ['3', '0', '0'] ∨ c3 = ['3', '0', '1'] ∨
                c3 = ['3', '0', '2'] ∨ c3 = ['3', '0', '3'] ∨
                c3 = ['3', '0', '4'] ∨ c3 = ['3', '0', '5'] then some DinersClub
            else some UnknownCard
        else some JCB
    else some UnknownCard

/-- `GetCardType` on a Go string. -/
def GetCardType (card : String) : Option String := getCardTypeL card.data

/-- The fixed set of brand labels. -/
def cardBrands : List String :=
  [Visa, MasterCard, AmericanExpress, DinersClub, Discover, JCB, UnknownCard]

theorem goSlice_cons_one (c : Char) (r : List Char) :
    goSlice (c :: r) 1 = some [c] := by
  simp [goSlice]

theorem goSlice_cons_two (c d : Char) (r : List Char) :
    goSlice (c :: d :: r) 2 = some [c, d] := by
  simp [goSlice]

theorem goSlice_cons_three (c d e : Char) (r : List Char) :
    goSlice (c :: d :: e :: r) 3 = some [c, d, e] := by
  simp [goSlice]

theorem goSlice_cons_four (c d e f : Char) (r : List Char) :
    goSlice (c :: d :: e :: f :: r) 4 = some [c, d, e, f] := by
  simp [goSlice]

/-- C4 counterexample: "1" is a non-empty numeric string, yet
`GetCardType "1"` reaches the out-of-range branch of `card[0:4]`
(the slice panics), so it does not return normally. -/
theorem C4_counterexample :
    "1".data.all isGoDigit = true ∧ "1" ≠ "" ∧ GetCardType "1" = none :=
  ⟨by decide, by decide, rfl⟩

/-- C4 (amended): for every numeric string of length at least 4 —
enough for every prefix slice `card[0:1]`..`card[0:4]` the function
performs — `GetCardType` returns normally with one label from the
fixed brand set. -/
theorem C4_total_on_length_four (s : String)
    (hd : s.data.all isGoDigit = true) (hlen : 4 ≤ s.length) :
    GetCardType s ∈ cardBrands.map some := by
  obtain ⟨l⟩ := s
  have hlen' : 4 ≤ l.length := hlen
  rcases l with _ | ⟨c1, _ | ⟨c2, _ | ⟨c3, _ | ⟨c4, r⟩⟩⟩⟩ <;>
    simp only [List.length_nil, List.length_cons] at hlen' <;> try omega
  show getCardTypeL (c1 :: c2 :: c3 :: c4 :: r) ∈ cardBrands.map some
  simp only [getCardTypeL, goSlice_cons_one, goSlice_cons_two,
    goSlice_cons_three, goSlice_cons_four]
  split_ifs <;> decide

/-- C4 witness: the amended statement applied to "4242424242424242". -/
theorem C4_witness :
    "4242424242424242".data.all isGoDigit = true ∧
    4 ≤ "4242424242424242".length ∧
    GetCardType "4242424242424242" ∈ cardBrands.map some :=
  ⟨by decide, by decide,
    C4_total_on_length_four "4242424242424242" (by decide) (by decide)⟩

/-- C5 counterexample: "306" is numeric, begins with "3", and matches
neither the American Express prefixes ("34", "37") nor the Diners
Club prefixes ("36", "300"-"305"), yet `GetCardType` returns
"Unknown", not "JCB". -/
theorem C5_counterexample :
    "306".data = ['3', '0', '6'] ∧ "306".data.all isGoDigit = true ∧
    GetCardType "306" = some UnknownCard ∧ some UnknownCard ≠ some JCB :=
  ⟨by decide, by decide, rfl, by decide⟩

/-- C5 (amended): for a numeric string beginning with "3" (long enough
for the prefix tests) matching neither the American Express nor the
Diners Club prefixes: if its two-character prefix is not "30" the
result is "JCB", but if the prefix is "30" (third digit 6-9) the
result is "Unknown". -/
theorem C5_three_fallback (s : String) (_hd : s.data.all isGoDigit = true) :
    (∀ d r, s.data = '3' :: d :: r →
      d ≠ '0' → d ≠ '4' → d ≠ '6' → d ≠ '7' → GetCardType s = some JCB)
    ∧ (∀ d r, s.data = '3' :: '0' :: d :: r →
        d ≠ '0' → d ≠ '1' → d ≠ '2' → d ≠ '3' → d ≠ '4' → d ≠ '5' →
        GetCardType s = some UnknownCard) := by
  constructor
  · intro d r h h0 h4 h6 h7
    simp only [GetCardType, h, getCardTypeL, goSlice_cons_one, goSlice_cons_two]
    simp [h0, h4, h6, h7]
  · intro d r h h0 h1 h2 h3 h4 h5
    simp only [GetCardType, h, getCardTypeL, goSlice_cons_one,
      goSlice_cons_two, goSlice_cons_three]
    simp [h0, h1, h2, h3, h4, h5]

/-- C5 witness: the amended statement applied to "39" (JCB part) and
"306" (Unknown part). -/
theorem C5_witness :
    GetCardType "39" = some JCB ∧ GetCardType "306" = some UnknownCard :=
  ⟨(C5_three_fallback "39" (by decide)).1 '9' [] rfl (by decide) (by decide)
      (by decide) (by decide),
    (C5_three_fallback "306" (by decide)).2 '6' [] rfl (by decide) (by decide)
      (by decide) (by decide) (by decide) (by decide)⟩

/-- C6: the prefix-to-brand table of `GetCardType`: leading "4" gives
Visa; "51"-"55" MasterCard; "34"/"37" American Express; "36" or
"300"-"305" Diners Club; "6011" Discover; "2131"/"1800" JCB; and an
input matching none of the listed prefixes and not beginning with "3"
gives Unknown; in particular "6011000000000000" is Discover and
"9999999999999999" is Unknown. -/
theorem C6_prefix_table (s : String) (_hd : s.data.all isGoDigit = true) :
    (∀ r, s.data = '4' :: r → GetCardType s = some Visa)
    ∧ (∀ d r, s.data = '5' :: d :: r →
        (d = '1' ∨ d = '2' ∨ d = '3' ∨ d = '4' ∨ d = '5') →
        GetCardType s = some MasterCard)
    ∧ (∀ d r, s.data = '3' :: d :: r → (d = '4' ∨ d = '7') →
        GetCardType s = some AmericanExpress)
    ∧ (∀ r, s.data = '3' :: '6' :: r → GetCardType s = some DinersClub)
    ∧ (∀ d r, s.data = '3' :: '0' :: d :: r →
        (d = '0' ∨ d = '1' ∨ d = '2' ∨ d = '3' ∨ d = '4' ∨ d = '5') →
        GetCardType s = some DinersClub)
    ∧ (∀ r, s.data = '6' :: '0' :: '1' :: '1' :: r →
        GetCardType s = some Discover)
    ∧ (∀ r, s.data = '2' :: '1' :: '3' :: '1' :: r → GetCardType s = some JCB)
    ∧ (∀ r, s.data = '1' :: '8' :: '0' :: '0' :: r → GetCardType s = some JCB)
    ∧ (∀ c1 c2 c3 c4 r, s.data = c1 :: c2 :: c3 :: c4 :: r →
        c1 ≠ '3' → c1 ≠ '4' →
        ¬(c1 = '5' ∧ (c2 = '1' ∨ c2 = '2' ∨ c2 = '3' ∨ c2 = '4' ∨ c2 = '5')) →
        [c1, c2, c3, c4] ≠ ['6', '0', '1', '1'] →
        [c1, c2, c3, c4] ≠ ['2', '1', '3', '1'] →
        [c1, c2, c3, c4] ≠ ['1', '8', '0', '0'] →
        GetCardType s = some UnknownCard)
    ∧ GetCardType "6011000000000000" = some Discover
    ∧ GetCardType "9999999999999999" = some UnknownCard := by
  refine ⟨?_, ?_, ?_, ?_, ?_, ?_, ?_, ?_, ?_, rfl, rfl⟩
  · intro r h
    simp [GetCardType, h, getCardTypeL, goSlice_cons_one]
  · intro d r h hm
    rcases hm with rfl | rfl | rfl | rfl | rfl <;>
      simp [GetCardType, h, getCardTypeL, goSlice_cons_one, goSlice_cons_two]
  · intro d r h hm
    rcases hm with rfl | rfl <;>
      simp [GetCardType, h, getCardTypeL, goSlice_cons_one, goSlice_cons_two]
  · intro r h
    simp [GetCardType, h, getCardTypeL, goSlice_cons_one, goSlice_cons_two]
  · intro d r h hm
    rcases hm with rfl | rfl | rfl | rfl | rfl | rfl <;>
      simp [GetCardType, h, getCardTypeL, goSlice_cons_one, goSlice_cons_two,
        goSlice_cons_three]
  · intro r h
    simp [GetCardType, h, getCardTypeL, goSlice_cons_one, goSlice_cons_four]
  · intro r h
    simp [GetCardType, h, getCardTypeL, goSlice_cons_one, goSlice_cons_four]
  · intro r h
    simp [GetCardType, h, getCardTypeL, goSlice_cons_one, goSlice_cons_four]
  · intro c1 c2 c3 c4 r h h3 h4 h5 h6011 h2131 h1800
    simp only [GetCardType, h, getCardTypeL, goSlice_cons_one,
      goSlice_cons_two, goSlice_cons_three, goSlice_cons_four]
    clear h _hd
    simp only [List.cons.injEq, and_true, true_and] at *
    split_ifs <;>
      first
        | rfl
        | (exfalso; subst_vars; simp_all <;> tauto)

/-- C6 witness: the table applied at a concrete input per row. -/
theorem C6_witness :
    GetCardType "4242424242424242" = some Visa ∧
    GetCardType "5105105105105100" = some MasterCard ∧
    GetCardType "340000000000009" = some AmericanExpress ∧
    GetCardType "36227206271667" = some DinersClub ∧
    GetCardType "30569309025904" = some DinersClub ∧
    GetCardType "6011000000000004" = some Discover ∧
    GetCardType "2131000000000000" = some JCB ∧
    GetCardType "1800000000000000" = some JCB ∧
    GetCardType "9999999999999999" = some UnknownCard :=
  ⟨(C6_prefix_table "4242424242424242" (by decide)).1 _ rfl,
    (C6_prefix_table "5105105105105100" (by decide)).2.1 '1' _ rfl (by decide),
    (C6_prefix_table "340000000000009" (by decide)).2.2.1 '4' _ rfl (by decide),
    (C6_prefix_table "36227206271667" (by decide)).2.2.2.1 _ rfl,
    (C6_prefix_table "30569309025904" (by decide)).2.2.2.2.1 '5' _ rfl
      (by decide),
    (C6_prefix_table "6011000000000004" (by decide)).2.2.2.2.2.1 _ rfl,
    (C6_prefix_table "2131000000000000" (by decide)).2.2.2.2.2.2.1 _ rfl,
    (C6_prefix_table "1800000000000000" (by decide)).2.2.2.2.2.2.2.1 _ rfl,
    (C6_prefix_table "9999999999999999" (by decide)).2.2.2.2.2.2.2.2.1 '9' '9'
      '9' '9' _ rfl (by decide) (by decide) (by decide) (by decide) (by decide)
      (by decide)⟩

/-! ## Decimal formatting and parsing (strconv.AppendInt / strconv.ParseInt) -/

/-- The decimal digits of `n`, least-significant first (empty for 0);
structural recursion on a fuel bound (the digit count never exceeds
`n`), so that the kernel can evaluate concrete instances. -/
def natToRevDigitsFuel : Nat → Nat → List Char
  | 0, _ => []
  | _ + 1, 0 => []
  | fuel + 1, n + 1 =>
    Char.ofNat (48 + (n + 1) % 10) :: natToRevDigitsFuel fuel ((n + 1) / 10)

/-- The decimal digits of `n`, least-significant first (empty for 0). -/
def natToRevDigits (n : Nat) : List Char := natToRevDigitsFuel n n

theorem natToRevDigitsFuel_eq (n : Nat) : ∀ f f', n ≤ f → n ≤ f' →
    natToRevDigitsFuel f n = natToRevDigitsFuel f' n := by
  induction n using Nat.strong_induction_on with
  | _ n ih =>
    intro f f' hf hf'
    match n, f, f', hf, hf' with
    | 0, 0, 0, _, _ => rfl
    | 0, 0, _ + 1, _, _ => rfl
    | 0, _ + 1, 0, _, _ => rfl
    | 0, _ + 1, _ + 1, _, _ => rfl
    | m + 1, g + 1, g' + 1, hf, hf' =>
      show Char.ofNat (48 + (m + 1) % 10) :: natToRevDigitsFuel g ((m + 1) / 10)
        = Char.ofNat (48 + (m + 1) % 10) :: natToRevDigitsFuel g' ((m + 1) / 10)
      have hlt : (m + 1) / 10 < m + 1 := Nat.div_lt_self (Nat.succ_pos _) (by decide)
      congr 1
      exact ih ((m + 1) / 10) hlt g g' (by omega) (by omega)

theorem natToRevDigits_succ (m : Nat) :
    natToRevDigits (m + 1) =
      Char.ofNat (48 + (m + 1) % 10) :: natToRevDigits ((m + 1) / 10) := by
  show Char.ofNat (48 + (m + 1) % 10) :: natToRevDigitsFuel m ((m + 1) / 10) = _
  have hlt : (m + 1) / 10 < m + 1 := Nat.div_lt_self (Nat.succ_pos _) (by decide)
  congr 1
  exact natToRevDigitsFuel_eq ((m + 1) / 10) m ((m + 1) / 10) (by omega)
    (Nat.le_refl _)

/-- Decimal representation of a natural number, most-significant digit
first, as `strconv.AppendInt` renders a non-negative value. -/
def formatNat (n : Nat) : List Char :=
  if n = 0 then ['0'] else (natToRevDigits n).reverse

/-- `strconv.AppendInt(nil, i, 10)`: decimal digits with a leading
minus sign for negative values. -/
def goFormatInt (i : Int) : String :=
  if i < 0 then ⟨'-' :: formatNat i.natAbs⟩ else ⟨formatNat i.natAbs⟩

/-- Value of a digit run, most-significant digit first. -/
def digitsToNat (l : List Char) : Nat :=
  l.foldl (fun acc c => acc * 10 + digitVal c) 0

/-- A non-empty run of decimal digits, or `none`. -/
def parseDigitRun (l : List Char) : Option Nat :=
  if l ≠ [] ∧ l.all isGoDigit then some (digitsToNat l) else none

/-- `strconv.ParseInt(s, 10, 64)`: an optional sign followed by a
non-empty digit run; `none` models both a syntax error and the
`ErrRange` overflow error (either makes the Go call return a non-nil
error). -/
def goParseInt64 (s : String) : Option Int :=
  match s.data with
  | [] => none
  | c :: rest =>
    if c = '+' then
      (parseDigitRun rest).bind fun n =>
        if n ≤ 2 ^ 63 - 1 then some (n : Int) else none
    else if c = '-' then
      (parseDigitRun rest).bind fun n =>
        if n ≤ 2 ^ 63 then some (-(n : Int)) else none
    else
      (parseDigitRun (c :: rest)).bind fun n =>
        if n ≤ 2 ^ 63 - 1 then some (n : Int) else none

theorem natToRevDigits_all (n : Nat) :
    (natToRevDigits n).all isGoDigit = true := by
  induction n using Nat.strong_induction_on with
  | _ n ih =>
    match n with
    | 0 => rfl
    | m + 1 =>
      rw [natToRevDigits_succ, List.all_cons, Bool.and_eq_true]
      refine ⟨?_, ih ((m + 1) / 10) (Nat.div_lt_self (Nat.succ_pos _) (by decide))⟩
      have hlt : (m + 1) % 10 < 10 := Nat.mod_lt _ (by decide)
      interval_cases h : (m + 1) % 10 <;> decide

theorem digitsToNat_append (l : List Char) (c : Char) :
    digitsToNat (l ++ [c]) = digitsToNat l * 10 + digitVal c := by
  simp [digitsToNat, List.foldl_append]

theorem digitsToNat_revDigits (n : Nat) :
    digitsToNat (natToRevDigits n).reverse = n := by
  induction n using Nat.strong_induction_on with
  | _ n ih =>
    match n with
    | 0 => rfl
    | m + 1 =>
      rw [natToRevDigits_succ, List.reverse_cons, digitsToNat_append,
        ih ((m + 1) / 10) (Nat.div_lt_self (Nat.succ_pos _) (by decide))]
      have hlt : (m + 1) % 10 < 10 := Nat.mod_lt _ (by decide)
      have hdv : digitVal (Char.ofNat (48 + (m + 1) % 10)) = (m + 1) % 10 := by
        interval_cases h : (m + 1) % 10 <;> decide
      rw [hdv]
      omega

theorem parseDigitRun_formatNat (n : Nat) :
    parseDigitRun (formatNat n) = some n := by
  rcases Nat.eq_zero_or_pos n with rfl | hpos
  · rfl
  · have hne : n ≠ 0 := Nat.pos_iff_ne_zero.mp hpos
    rw [formatNat, if_neg hne, parseDigitRun]
    rw [if_pos]
    · rw [digitsToNat_revDigits]
    · constructor
      · match hn : n, hne with
        | m + 1, _ => rw [natToRevDigits_succ]; simp
      · rw [List.all_reverse]; exact natToRevDigits_all n

theorem formatNat_all (n : Nat) : (formatNat n).all isGoDigit = true := by
  rw [formatNat]
  split_ifs
  · rfl
  · rw [List.all_reverse]; exact natToRevDigits_all n

theorem formatNat_ne_nil (n : Nat) : formatNat n ≠ [] := by
  rw [formatNat]
  split_ifs with h
  · simp
  · intro hcon
    rw [List.reverse_eq_nil_iff] at hcon
    match hn : n, h with
    | m + 1, _ => rw [natToRevDigits_succ] at hcon; exact List.noConfusion hcon

theorem goParseInt64_minus (l : List Char) :
    goParseInt64 ⟨'-' :: l⟩ =
      (parseDigitRun l).bind fun n =>
        if n ≤ 2 ^ 63 then some (-(n : Int)) else none := by
  show (match ('-' :: l : List Char) with
    | [] => none
    | c :: rest =>
      if c = '+' then
        (parseDigitRun rest).bind fun n =>
          if n ≤ 2 ^ 63 - 1 then some (n : Int) else none
      else if c = '-' then
        (parseDigitRun rest).bind fun n =>
          if n ≤ 2 ^ 63 then some (-(n : Int)) else none
      else
        (parseDigitRun (c :: rest)).bind fun n =>
          if n ≤ 2 ^ 63 - 1 then some (n : Int) else none) = _
  simp

theorem goParseInt64_digitHead (c : Char) (rest : List Char)
    (h1 : c ≠ '+') (h2 : c ≠ '-') :
    goParseInt64 ⟨c :: rest⟩ =
      (parseDigitRun (c :: rest)).bind fun n =>
        if n ≤ 2 ^ 63 - 1 then some (n : Int) else none := by
  show (match (c :: rest : List Char) with
    | [] => none
    | c :: rest =>
      if c = '+' then
        (parseDigitRun rest).bind fun n =>
          if n ≤ 2 ^ 63 - 1 then some (n : Int) else none
      else if c = '-' then
        (parseDigitRun rest).bind fun n =>
          if n ≤ 2 ^ 63 then some (-(n : Int)) else none
      else
        (parseDigitRun (c :: rest)).bind fun n =>
          if n ≤ 2 ^ 63 - 1 then some (n : Int) else none) = _
  simp [h1, h2]

/-- Round trip: parsing the formatted decimal of an int64-range value
recovers it. -/
theorem goParseInt64_goFormatInt (m : Int) (hlo : -(2 ^ 63) ≤ m)
    (hhi : m ≤ 2 ^ 63 - 1) : goParseInt64 (goFormatInt m) = some m := by
  have habs : m.natAbs ≤ 2 ^ 63 := by omega
  rcases Int.lt_or_le m 0 with hneg | hnn
  · rw [goFormatInt, if_pos hneg, goParseInt64_minus, parseDigitRun_formatNat]
    simp only [Option.some_bind]
    rw [if_pos habs]
    congr 1
    omega
  · rw [goFormatInt, if_neg (by omega)]
    have hnabs : m.natAbs ≤ 2 ^ 63 - 1 := by omega
    rcases hfmt : formatNat m.natAbs with _ | ⟨c, rest⟩
    · exact absurd hfmt (formatNat_ne_nil _)
    · have hcd : isGoDigit c = true := by
        have hall := formatNat_all m.natAbs
        rw [hfmt, List.all_cons, Bool.and_eq_true] at hall
        exact hall.1
      have hc1 : c ≠ '+' := by
        intro hcon; rw [hcon] at hcd; exact absurd hcd (by decide)
      have hc2 : c ≠ '-' := by
        intro hcon; rw [hcon] at hcd; exact absurd hcd (by decide)
      rw [goParseInt64_digitHead c rest hc1 hc2, ← hfmt,
        parseDigitRun_formatNat]
      simp only [Option.some_bind]
      rw [if_pos hnabs]
      congr 1
      omega

/-! ## UnixTime (src/unixtime.go) -/

/-- `time.Time` modelled by its count of nanoseconds since the Unix
epoch (`UnixNano`). -/
structure UnixTime where
  nanos : Int
deriving DecidableEq

/-- `time.Unix(sec, nsec)`. -/
def timeUnix (sec nsec : Int) : UnixTime :=
  ⟨sec * 1000000000 + nsec⟩

/-- The `stripe: invalid timestamp` error value `UnixTimeUnmarshalError`
from src/unixtime.go line 9. -/
inductive StripeNativeError
  | UnixTimeUnmarshalError
deriving DecidableEq

/-- `UnixTime.MarshalJSON` from src/unixtime.go:
`strconv.AppendInt(nil, t.UnixNano()/int64(time.Millisecond), 10)` —
Go `int64` division truncates toward zero, hence `Int.tdiv`;
`time.Millisecond` is 10^6 nanoseconds. -/
def UnixTime.MarshalJSON (t : UnixTime) : String :=
  goFormatInt (t.nanos.tdiv 1000000)

/-- `UnixTime.UnmarshalJSON` from src/unixtime.go, as a function from
the receiver and the wire bytes to the returned error (if any) and the
resulting receiver state: on `"null"` the parse is skipped and `i`
stays 0; a parse failure returns `UnixTimeUnmarshalError` before the
receiver is assigned; otherwise the receiver becomes
`time.Unix(i, 0)`. -/
def UnixTime.UnmarshalJSON (t : UnixTime) (data : String) :
    Option StripeNativeError × UnixTime :=
  if data = "null" then (none, timeUnix 0 0)
  else
    match goParseInt64 data with
    | none => (some StripeNativeError.UnixTimeUnmarshalError, t)
    | some i => (none, timeUnix i 0)

theorem tdiv_million_int64_range (a : Int) (h1 : -(2 ^ 63) ≤ a)
    (h2 : a ≤ 2 ^ 63 - 1) :
    -(2 ^ 63) ≤ a.tdiv 1000000 ∧ a.tdiv 1000000 ≤ 2 ^ 63 - 1 := by
  generalize hg : a.tdiv 1000000 = x
  have h : x.natAbs = a.natAbs / 1000000 := by
    rw [← hg]; exact Int.natAbs_tdiv a 1000000
  omega

/-- C8: `MarshalJSON` writes `t.UnixNano() / 10^6` (milliseconds since
the epoch) while `UnmarshalJSON` reads the wire integer `n` as seconds
(`time.Unix(n, 0)`); hence unmarshalling the marshalled form of any
int64-representable `t` yields `time.Unix(t.UnixNano() / 10^6, 0)`,
and the marshal-then-unmarshal round trip is not the identity in
general — the two directions disagree about the unit. -/
theorem C8_timestamp_unit_mismatch :
    (∀ t : UnixTime, -(2 ^ 63) ≤ t.nanos → t.nanos ≤ 2 ^ 63 - 1 →
      ∀ u : UnixTime,
        u.UnmarshalJSON t.MarshalJSON =
          (none, timeUnix (t.nanos.tdiv 1000000) 0))
    ∧ (∃ t : UnixTime, -(2 ^ 63) ≤ t.nanos ∧ t.nanos ≤ 2 ^ 63 - 1 ∧
        (t.UnmarshalJSON t.MarshalJSON).2 ≠ t) := by
  have main : ∀ t : UnixTime, -(2 ^ 63) ≤ t.nanos → t.nanos ≤ 2 ^ 63 - 1 →
      ∀ u : UnixTime,
        u.UnmarshalJSON t.MarshalJSON =
          (none, timeUnix (t.nanos.tdiv 1000000) 0) := by
    intro t hlo hhi u
    obtain ⟨hmlo, hmhi⟩ := tdiv_million_int64_range t.nanos hlo hhi
    have hparse : goParseInt64 t.MarshalJSON = some (t.nanos.tdiv 1000000) :=
      goParseInt64_goFormatInt _ hmlo hmhi
    have hnotnull : t.MarshalJSON ≠ "null" := by
      intro hcon
      rw [hcon] at hparse
      exact Option.noConfusion ((rfl : goParseInt64 "null" = none) ▸ hparse)
    rw [UnixTime.UnmarshalJSON, if_neg hnotnull, hparse]
  refine ⟨main, ⟨⟨1000000000⟩, by decide, by decide, ?_⟩⟩
  rw [main ⟨1000000000⟩ (by decide) (by decide) ⟨1000000000⟩]
  intro hcon
  have : timeUnix (Int.tdiv 1000000000 1000000) 0 = (⟨1000000000⟩ : UnixTime) :=
    hcon
  rw [show Int.tdiv 1000000000 1000000 = 1000 from rfl] at this
  exact absurd (congrArg UnixTime.nanos this) (by decide)

/-- C8 witness: the round-trip clause applied to the concrete timestamp
of 10^9 nanoseconds (1 second) past the epoch: unmarshalling its
marshalled form gives `time.Unix(1000, 0)`. -/
theorem C8_witness :
    -(2 ^ 63) ≤ (1000000000 : Int) ∧ (1000000000 : Int) ≤ 2 ^ 63 - 1 ∧
    UnixTime.UnmarshalJSON ⟨0⟩ (UnixTime.MarshalJSON ⟨1000000000⟩) =
      (none, timeUnix (Int.tdiv 1000000000 1000000) 0) :=
  ⟨by decide, by decide,
    C8_timestamp_unit_mismatch.1 ⟨1000000000⟩ (by decide) (by decide) ⟨0⟩⟩

/-- C10: `UnmarshalJSON` on the literal `"null"` succeeds and sets the
receiver to `time.Unix(0, 0)`; on any input that is neither `"null"`
nor a parseable decimal integer it returns `UnixTimeUnmarshalError`
and leaves the receiver unchanged. -/
theorem C10_UnmarshalJSON_null_and_error (t : UnixTime) :
    UnixTime.UnmarshalJSON t "null" = (none, timeUnix 0 0)
    ∧ (∀ s : String, s ≠ "null" → goParseInt64 s = none →
        UnixTime.UnmarshalJSON t s =
          (some StripeNativeError.UnixTimeUnmarshalError, t)) := by
  constructor
  · rfl
  · intro s hne hparse
    rw [UnixTime.UnmarshalJSON, if_neg hne, hparse]

/-- C10 witness: applied to the receiver 5 ns and the unparseable
input "abc". -/
theorem C10_witness :
    ("abc" : String) ≠ "null" ∧ goParseInt64 "abc" = none ∧
    UnixTime.UnmarshalJSON ⟨5⟩ "abc" =
      (some StripeNativeError.UnixTimeUnmarshalError, ⟨5⟩) :=
  ⟨by decide, by decide,
    (C10_UnmarshalJSON_null_and_error ⟨5⟩).2 "abc" (by decide) (by decide)⟩

/-! ## Form-value construction (src/customer.go, src/charge.go) -/

/-- `CardParams` from src/card.go lines 43-73 (Go `int` fields as
`Int`, strings as `String`). -/
structure CardParams where
  Name : String
  Number : String
  ExpMonth : Int
  ExpYear : Int
  CVC : String
  Address1 : String
  Address2 : String
  AddressCountry : String
  AddressState : String
  AddressZip : String
deriving DecidableEq

/-- `strconv.Itoa`. -/
def goItoa (i : Int) : String := goFormatInt i

/-- `appendCardParams` from src/customer.go lines 211-242, as the list
of key-value pairs it `Add`s, in order. Note: the source guards the
`card[exp_year]` entry with `c.ExpMonth != 0` (line 218), not with
`c.ExpYear != 0`. -/
def appendCardParams (c : CardParams) : List (String × String) :=
  (if c.Number ≠ "" then [("card[number]", c.Number)] else []) ++
  (if c.ExpMonth ≠ 0 then [("card[exp_month]", goItoa c.ExpMonth)] else []) ++
  (if c.ExpMonth ≠ 0 then [("card[exp_year]", goItoa c.ExpYear)] else []) ++
  (if c.Name ≠ "" then [("card[name]", c.Name)] else []) ++
  (if c.CVC ≠ "" then [("card[cvc]", c.CVC)] else []) ++
  (if c.Address1 ≠ "" then [("card[address_line1]", c.Address1)] else []) ++
  (if c.Address2 ≠ "" then [("card[address_line2]", c.Address2)] else []) ++
  (if c.AddressZip ≠ "" then [("card[address_zip]", c.AddressZip)] else []) ++
  (if c.AddressState ≠ "" then [("card[address_state]", c.AddressState)] else []) ++
  (if c.AddressCountry ≠ "" then [("card[address_country]", c.AddressCountry)] else [])

/-- `ChargeParams` from src/charge.go lines 55-89; the optional
`Capture *bool` is an `Option Bool`, the optional `Card *CardParams`
an `Option CardParams`, and `Metadata` an association list. -/
structure ChargeParams where
  Amount : Int
  Currency : String
  Customer : String
  Card : Option CardParams
  Token : String
  Description : String
  Capture : Option Bool
  StatementDescription : String
  Metadata : List (String × String)

/-- Modelled from the spec: `appendMetadata` is called by
`ChargeClient.Create` but its definition is not under src/; per the
spec's bracketed-key serialization convention (§6), each metadata
entry `k → v` is added under the key `metadata[k]`. -/
def appendMetadata (md : List (String × String)) : List (String × String) :=
  md.map fun kv => ("metadata[" ++ kv.1 ++ "]", kv.2)

/-- The form values built by `ChargeClient.Create` (src/charge.go
lines 98-128), as the ordered list of key-value pairs `Add`ed before
the `query` call: `amount` and `currency` always; `description`,
`capture` (only as the literal `"false"`, when `params.Capture` is
non-nil and points to false) and `statement_description`
conditionally; then the metadata; then card fields, or the token, or
the customer. -/
def chargeCreateValues (p : ChargeParams) : List (String × String) :=
  [("amount", goItoa p.Amount), ("currency", p.Currency)] ++
  (if p.Description ≠ "" then [("description", p.Description)] else []) ++
  (if p.Capture = some false then [("capture", "false")] else []) ++
  (if p.StatementDescription ≠ ""
    then [("statement_description", p.StatementDescription)] else []) ++
  appendMetadata p.Metadata ++
  (match p.Card with
   | some c => appendCardParams c
   | none =>
     if p.Token.length > 0 then [("card", p.Token)]
     else [("customer", p.Customer)])

/-- C7 (the code evaluated at the failing input): with `ExpYear = 2017`
set and all other fields default, `appendCardParams` emits nothing at
all — no `card[exp_year]` despite `ExpYear` being non-zero — while
with `ExpMonth = 3` set and `ExpYear = 0` it emits `card[exp_year]`
with the default value "0": the `card[exp_year]` entry is gated on
`ExpMonth`, not on the `ExpYear` field itself. -/
theorem C7_exp_year_gated_on_exp_month :
    appendCardParams ⟨"", "", 0, 2017, "", "", "", "", "", ""⟩ = []
    ∧ appendCardParams ⟨"", "", 3, 0, "", "", "", "", "", ""⟩ =
        [("card[exp_month]", "3"), ("card[exp_year]", "0")] :=
  ⟨rfl, rfl⟩

theorem mem_ite_nil {α : Type} {P : Prop} [Decidable P] {l : List α} {a : α}
    (h : a ∈ (if P then l else [])) : P ∧ a ∈ l := by
  split_ifs at h with hp
  · exact ⟨hp, h⟩
  · cases h

theorem capture_notin_appendMetadata (md : List (String × String)) (v : String) :
    ("capture", v) ∉ appendMetadata md := by
  intro hmem
  rw [appendMetadata, List.mem_map] at hmem
  obtain ⟨kv, _, heq⟩ := hmem
  have hkey : "metadata[" ++ kv.1 ++ "]" = "capture" := congrArg Prod.fst heq
  have hlen := congrArg String.length hkey
  rw [String.length_append, String.length_append] at hlen
  rw [show ("metadata[" : String).length = 9 from rfl,
    show ("]" : String).length = 1 from rfl,
    show ("capture" : String).length = 7 from rfl] at hlen
  omega

theorem capture_notin_appendCardParams (c : CardParams) (v : String) :
    ("capture", v) ∉ appendCardParams c := by
  intro hmem
  rw [appendCardParams] at hmem
  simp only [List.mem_append] at hmem
  rcases hmem with ((((((((h | h) | h) | h) | h) | h) | h) | h) | h) | h <;>
    · have h2 := (mem_ite_nil h).2
      simp at h2

/-- C9: the form values of `ChargeClient.Create` contain the key
`capture` iff `params.Capture` is non-nil and points to `false`, in
which case the value is the literal `"false"`; when `Capture` is nil
or points to `true` the key is omitted entirely. -/
theorem C9_capture_iff_explicit_false (p : ChargeParams) :
    ((∃ v, ("capture", v) ∈ chargeCreateValues p) ↔ p.Capture = some false)
    ∧ (p.Capture = some false →
        ("capture", "false") ∈ chargeCreateValues p) := by
  have hback : p.Capture = some false →
      ("capture", "false") ∈ chargeCreateValues p := by
    intro hc
    simp [chargeCreateValues, hc]
  refine ⟨⟨?_, fun hc => ⟨"false", hback hc⟩⟩, hback⟩
  rintro ⟨v, hmem⟩
  rw [chargeCreateValues] at hmem
  simp only [List.mem_append] at hmem
  rcases hmem with ((((h | h) | h) | h) | h) | h
  · simp at h
  · have h2 := (mem_ite_nil h).2
    simp at h2
  · exact (mem_ite_nil h).1
  · have h2 := (mem_ite_nil h).2
    simp at h2
  · exact absurd h (capture_notin_appendMetadata p.Metadata v)
  · rcases hcard : p.Card with _ | c
    · rw [hcard] at h
      have h2 : ("capture", v) ∈
          (if p.Token.length > 0 then [("card", p.Token)]
           else [("customer", p.Customer)]) := h
      split_ifs at h2 <;> simp at h2
    · rw [hcard] at h
      exact absurd h (capture_notin_appendCardParams c v)

/-- C9 witness: for a charge of 100 usd on customer cus_1 with
`Capture` explicitly false, the form values carry `capture=false`. -/
theorem C9_witness :
    ((⟨100, "usd", "cus_1", none, "", "", some false, "", []⟩ :
        ChargeParams).Capture = some false) ∧
    ("capture", "false") ∈ chargeCreateValues
      ⟨100, "usd", "cus_1", none, "", "", some false, "", []⟩ :=
  ⟨rfl, (C9_capture_iff_explicit_false
    ⟨100, "usd", "cus_1", none, "", "", some false, "", []⟩).2 rfl⟩

end Stripe
